import Mathlib

/-!
Shallow embedding of the app-management core of the `aiidalab` package
(`aiidalab/__main__.py`: class `AiidaLabApp` and the `uninstall` CLI command),
together with theorems settling the spec claims about it.

Modelling conventions:
* The filesystem/git state of one app working directory is `Option RepoState`:
  `none` means the path does not exist, `some rs` means the path exists and is
  a repository whose current head commit is `rs.head` and whose dirty flag is
  `rs.dirty`.
* Python dicts are insertion-ordered association lists; lookup returns the
  binding of the *last* insertion for a key (later insertions overwrite).
* `packaging.version.parse` is an external library function; statements are
  parameterized over `parse : String → κ` into a linear order `κ`, and over
  `strOf : κ → String` for Python's `str()` of a parsed version.
* `Requirement`/`fulfills`/`find_installed_packages` are external collaborators
  (module `aiidalab.utils`); statements are parameterized over them.
* `git clone` is an external side-effecting operation; statements are
  parameterized over `gitClone : url → ref → path → Except String RepoState`
  where an `Except.error` carries the wrapped stderr text.
* Python's stable `list.sort(key=parse, reverse=True)` is embedded as
  `List.mergeSort` (a stable sort) with the relation `parse b ≤ parse a`;
  any two stable sorts with the same relation agree.
-/

namespace Aiidalab

/-- One release entry of the registry: the pinned commit and the
dependency declarations (ecosystem key ↦ requirement strings),
as in `registry_entry["releases"][version]`. -/
structure Release where
  commit : String
  dependencies : List (String × List String)
deriving DecidableEq, Repr

/-- The `AiidaLabApp` dataclass fields needed by the claims
(`metadata`/`categories` are opaque payloads and are omitted). The
`releases` dict is an insertion-ordered association list. -/
structure AiidaLabApp where
  name : String
  path : String
  git_url : String
  releases : List (String × Release)
deriving DecidableEq, Repr

/-- Observable git state of an existing working directory:
the decoded head commit and the dirty flag reported by the repo. -/
structure RepoState where
  head : String
  dirty : Bool
deriving DecidableEq, Repr

/-- Modelled from the spec: the `AppVersion` enumeration imported from
`aiidalab.app` (not present in this source snapshot). `installed_version`
is one of a known version string, `UNKNOWN`, or `NOT_INSTALLED`. -/
inductive AppVersion where
  | notInstalled
  | unknown
  | version (v : String)
deriving DecidableEq, Repr

/-- Python dict lookup on an insertion-ordered association list built with
insert-overwrite semantics: the binding of the last insertion for a key wins
(`d.get(k)` / `d[k]`). -/
def dictGet {β : Type} (l : List (String × β)) (key : String) : Option β :=
  (l.reverse.find? (fun p => p.1 == key)).map (fun p => p.2)

/-- The dict comprehension `{r["commit"]: k for k, r in self.releases.items()}`
as an insertion-ordered association list (commit ↦ version label). -/
def versions_by_commit (releases : List (String × Release)) : List (String × String) :=
  releases.map (fun p => (p.2.commit, p.1))

/-- `AiidaLabApp.installed_version`: if the path exists, reverse-map the head
commit through the releases dict, defaulting to `UNKNOWN`; otherwise
`NOT_INSTALLED`. (The source consults only the head commit — not `dirty()`.) -/
def installed_version (app : AiidaLabApp) (repo : Option RepoState) : AppVersion :=
  match repo with
  | some rs =>
    match dictGet (versions_by_commit app.releases) rs.head with
    | some v => AppVersion.version v
    | none => AppVersion.unknown
  | none => AppVersion.notInstalled

/-- `AiidaLabApp.dirty`: returns the repo's dirty flag when the path exists and
implicitly returns `None` (here `none`) when it does not. -/
def dirty (repo : Option RepoState) : Option Bool :=
  repo.map (fun rs => rs.dirty)

/-- Python truthiness of an `Option Bool` value (`None` is falsy), as used by
callers that test `app.dirty()` in a boolean context. -/
def truthy : Option Bool → Bool
  | none => false
  | some b => b

/-- `shutil.rmtree` on the app path: removes an existing directory tree and
raises (`FileNotFoundError`) when the path does not exist. -/
def rmtree (st : Option RepoState) : Except String (Option RepoState) :=
  match st with
  | some _ => Except.ok none
  | none => Except.error "FileNotFoundError"

/-- `AiidaLabApp.uninstall`: `if self.path.exists(): shutil.rmtree(self.path)`. -/
def uninstall (st : Option RepoState) : Except String (Option RepoState) :=
  if st.isSome then rmtree st else Except.ok st

/-- The working-directory state right after `self.uninstall()` (which never
raises): the directory is gone. -/
def uninstalled (st : Option RepoState) : Option RepoState :=
  if st.isSome then none else st

/-- `AiidaLabApp.find_matching_release`: filter the release labels (in dict
insertion order) by membership of their parsed version in the specifier, then
stable-sort by parsed version, newest first (`sort(key=parse, reverse=True)`). -/
def find_matching_release {κ : Type} [LinearOrder κ] (parse : String → κ)
    (specifier : κ → Bool) (app : AiidaLabApp) : List String :=
  let matching := (app.releases.map (fun p => p.1)).filter (fun v => specifier (parse v))
  matching.mergeSort (fun a b => decide (parse b ≤ parse a))

/-- `AiidaLabApp._find_incompatibilities_python` (fully materialized): the
requirements, in input order, that no installed package fulfills. -/
def find_incompatibilities_python {Pkg Req : Type} (Requirement : String → Req)
    (packages : List Pkg) (fulfills : Pkg → Req → Bool)
    (requirements : List String) : List Req :=
  (requirements.map Requirement).filter
    (fun r => !(packages.any (fun p => fulfills p r)))

/-- `any(self._find_incompatibilities(version))` restricted to the dependency
map: the generator is consumed lazily, stopping at the first yielded
incompatibility, so a `ValueError` for an unrecognized ecosystem key is raised
only if the iteration reaches that key before any incompatibility is yielded. -/
def any_incompatibility {Pkg Req : Type} (Requirement : String → Req)
    (packages : List Pkg) (fulfills : Pkg → Req → Bool) :
    List (String × List String) → Except String Bool
  | [] => Except.ok false
  | (key, deps) :: rest =>
    if key == "python-requirements" then
      if (find_incompatibilities_python Requirement packages fulfills deps).isEmpty then
        any_incompatibility Requirement packages fulfills rest
      else
        Except.ok true
    else
      Except.error "ValueError: Unknown eco-system"

/-- `AiidaLabApp.is_compatible`: `not any(self._find_incompatibilities(version))`,
with `self.releases[version]` raising `KeyError` for an unknown version. -/
def is_compatible {Pkg Req : Type} (Requirement : String → Req)
    (packages : List Pkg) (fulfills : Pkg → Req → Bool)
    (app : AiidaLabApp) (version : String) : Except String Bool :=
  match dictGet app.releases version with
  | none => Except.error "KeyError"
  | some rel =>
    (any_incompatibility Requirement packages fulfills rel.dependencies).map
      (fun b => !b)

/-- `urllib.parse.urldefrag(url).url`: the URL with any fragment removed,
i.e. the characters before the first occurrence of the fragment separator. -/
def urldefrag_url (s : String) : String :=
  String.mk (s.toList.takeWhile (fun c => c ≠ '#'))

/-- The error raised by a failed `AiidaLabApp.install`: either the
`ValueError` for an app without releases, or the wrapped clone failure
carrying the app name, the target path, the requested ref and the
underlying cause text. -/
inductive InstallError where
  | noReleases (msg : String)
  | cloneFailed (name : String) (path : String) (versionRef : String) (cause : String)
deriving DecidableEq, Repr

/-- `AiidaLabApp.install`: resolve the version (`None` selects
`list(sorted(map(parse, self.releases)))[-1]`, raising when there are no
releases), then `self.uninstall()`, then `_git_clone(urldefrag(git_url).url,
version, self.path)`; a clone failure is re-raised with app name, path,
version and cause, leaving the directory removed. Returns the final
working-directory state together with the outcome. -/
def install {κ : Type} [LinearOrder κ] (parse : String → κ) (strOf : κ → String)
    (gitClone : String → String → String → Except String RepoState)
    (app : AiidaLabApp) (version : Option String) (st : Option RepoState) :
    Option RepoState × Except InstallError Unit :=
  let ref? : Except InstallError String :=
    match version with
    | some v => Except.ok v
    | none =>
      match ((app.releases.map (fun p => parse p.1)).mergeSort
          (fun a b => decide (a ≤ b))).getLast? with
      | some vmax => Except.ok (strOf vmax)
      | none => Except.error (InstallError.noReleases "No versions available")
  match ref? with
  | Except.error e => (st, Except.error e)
  | Except.ok ref =>
    let st1 := uninstalled st
    match gitClone (urldefrag_url app.git_url) ref app.path with
    | Except.ok repo => (some repo, Except.ok ())
    | Except.error cause =>
      (st1, Except.error (InstallError.cloneFailed app.name app.path ref cause))

/-- The `uninstall` CLI command body after the registry lookup succeeded:
when the path exists, compute `detached = app.dirty() or
app.installed_version() is AppVersion.UNKNOWN`; remove when forced or not
detached, otherwise refuse with a `ClickException` and leave the directory
untouched. Returns the final directory state together with the outcome. -/
def cli_uninstall (app : AiidaLabApp) (st : Option RepoState) (force : Bool) :
    Option RepoState × Except String Unit :=
  match st with
  | none => (none, Except.ok ())
  | some rs =>
    let detached := truthy (dirty (some rs)) ||
      (installed_version app (some rs) == AppVersion.unknown)
    if force || !detached then
      (none, Except.ok ())
    else
      (some rs, Except.error "Failed to uninstall: use the --force option to ignore and uninstall anyways")

/-- A concrete registry entry with one release at commit `abc`. -/
def fooApp : AiidaLabApp :=
  { name := "foo", path := "/project/apps/foo",
    git_url := "https://example.org/foo.git#main-branch",
    releases := [("1.0.0", { commit := "abc", dependencies := [] })] }

/-- A concrete registry entry with no releases. -/
def emptyApp : AiidaLabApp :=
  { name := "empty", path := "/project/apps/empty",
    git_url := "https://example.org/empty.git", releases := [] }

/-- A concrete registry entry whose two releases share the same commit. -/
def dupApp : AiidaLabApp :=
  { name := "dup", path := "/project/apps/dup",
    git_url := "https://example.org/dup.git",
    releases := [("1.0.0", { commit := "c", dependencies := [] }),
                 ("1.1.0", { commit := "c", dependencies := [] })] }

/-- A concrete registry entry whose release declares a `python-requirements`
entry followed by a `jupyter-requirements` entry (an ecosystem key that
`_find_incompatibilities` does not recognize). -/
def badApp : AiidaLabApp :=
  { name := "bad", path := "/project/apps/bad",
    git_url := "https://example.org/bad.git",
    releases := [("1.0.0",
      { commit := "c0",
        dependencies := [("python-requirements", ["numpy>=1.20"]),
                         ("jupyter-requirements", ["jupyterlab"])] })] }

/-- A concrete registry entry whose release declares only recognized
(`python-requirements`) dependency entries. -/
def goodApp : AiidaLabApp :=
  { name := "good", path := "/project/apps/good",
    git_url := "https://example.org/good.git",
    releases := [("2.0.0",
      { commit := "c2",
        dependencies := [("python-requirements", ["aiida-core"])] })] }

/-! ## Helper lemmas about the dict model -/

theorem dictGet_eq_none_iff {β : Type} (l : List (String × β)) (k : String) :
    dictGet l k = none ↔ ∀ p ∈ l, p.1 ≠ k := by
  simp [dictGet, List.find?_eq_none, List.mem_reverse]

theorem dictGet_eq_some_mem {β : Type} {l : List (String × β)} {k : String} {b : β}
    (h : dictGet l k = some b) : ∃ p ∈ l, p.1 = k ∧ p.2 = b := by
  unfold dictGet at h
  cases hf : l.reverse.find? (fun p => p.1 == k) with
  | none => rw [hf] at h; simp at h
  | some q =>
    rw [hf] at h
    have hq := List.find?_some hf
    have hm : q ∈ l := List.mem_reverse.mp (List.mem_of_find?_eq_some hf)
    refine ⟨q, hm, by simpa using hq, ?_⟩
    simpa using h

theorem dictGet_isSome_of_mem {β : Type} {l : List (String × β)} {k : String}
    (h : ∃ p ∈ l, p.1 = k) : dictGet l k ≠ none := by
  intro hn
  obtain ⟨p, hp, hk⟩ := h
  exact (dictGet_eq_none_iff l k).mp hn p hp hk

/-! ## Claim theorems -/

/-- C6: `uninstall()` is idempotent: it removes the working directory when
present, is a no-op raising no error when the directory is already absent,
and calling it twice in a row leaves the same final state as calling it
once. -/
theorem uninstall_idempotent (st : Option RepoState) :
    uninstall st = Except.ok none ∧
    (uninstall st).bind uninstall = uninstall st := by
  constructor
  · cases st <;> simp [uninstall, rmtree]
  · cases st <;> simp [uninstall, rmtree, Except.bind]

/-- C10: for an app whose working directory does not exist, `dirty()` returns
`None` rather than `False` or an error; the result is three-valued (`True`,
`False`, or `None` for not installed), and in a boolean context the
not-installed case is falsy. -/
theorem dirty_three_valued :
    dirty none = none ∧
    dirty none ≠ some false ∧
    (∀ rs : RepoState, dirty (some rs) = some rs.dirty) ∧
    truthy (dirty none) = false := by
  refine ⟨rfl, by simp [dirty], fun rs => rfl, rfl⟩

/-- C7: for an installed app whose working tree is dirty or whose installed
version is `UNKNOWN`, the `uninstall` CLI command without `--force` refuses
with an error and leaves the working directory untouched; with `--force` it
removes the directory unconditionally. -/
theorem cli_uninstall_refuses_detached (app : AiidaLabApp) (rs : RepoState)
    (h : rs.dirty = true ∨ installed_version app (some rs) = AppVersion.unknown) :
    (∃ msg, cli_uninstall app (some rs) false = (some rs, Except.error msg)) ∧
    cli_uninstall app (some rs) true = (none, Except.ok ()) := by
  have hd : (truthy (dirty (some rs)) ||
      (installed_version app (some rs) == AppVersion.unknown)) = true := by
    rcases h with h | h
    · simp [truthy, dirty, h]
    · simp [h]
  refine ⟨⟨"Failed to uninstall: use the --force option to ignore and uninstall anyways", ?_⟩, ?_⟩
  · simp [cli_uninstall, hd]
  · simp [cli_uninstall]

/-- C7 witness: a concrete dirty installed app is removed by the forced
uninstall command. -/
theorem cli_uninstall_refuses_detached_witness :
    cli_uninstall fooApp (some { head := "abc", dirty := true }) true =
      (none, Except.ok ()) :=
  (cli_uninstall_refuses_detached fooApp { head := "abc", dirty := true }
    (Or.inl rfl)).2

/-- C1 counterexample: with a release stored at commit `abc` and the working
tree dirty at head `abc`, `installed_version()` returns the release version,
not `UNKNOWN` — the source never consults `dirty()`, contradicting the claim
that a dirty working tree always yields `UNKNOWN`. -/
theorem installed_version_dirty_counterexample :
    dirty (some { head := "abc", dirty := true }) = some true ∧
    installed_version fooApp (some { head := "abc", dirty := true }) =
      AppVersion.version "1.0.0" ∧
    installed_version fooApp (some { head := "abc", dirty := true }) ≠
      AppVersion.unknown := by
  refine ⟨rfl, by decide, by decide⟩

/-- C1 (amended): `installed_version()` is `NOT_INSTALLED` iff the working
directory does not exist; it is `UNKNOWN` iff the directory exists and the
head revision matches no release's stored commit; otherwise it is a release
version whose stored commit equals the head revision — the dirty flag plays
no role in the result. -/
theorem installed_version_characterization (app : AiidaLabApp)
    (st : Option RepoState) :
    (installed_version app st = AppVersion.notInstalled ↔ st = none) ∧
    (installed_version app st = AppVersion.unknown ↔
      ∃ rs, st = some rs ∧ ∀ p ∈ app.releases, p.2.commit ≠ rs.head) ∧
    (∀ v, installed_version app st = AppVersion.version v →
      ∃ rs, st = some rs ∧ ∃ p ∈ app.releases, p.1 = v ∧ p.2.commit = rs.head) ∧
    (∀ rs, st = some rs → (∃ p ∈ app.releases, p.2.commit = rs.head) →
      ∃ v, installed_version app st = AppVersion.version v) := by
  cases st with
  | none =>
    refine ⟨by simp [installed_version], ?_, ?_, ?_⟩
    · simp [installed_version]
    · intro v h; simp [installed_version] at h
    · intro rs h; simp at h
  | some rs =>
    have hmem : ∀ c, (∀ q ∈ versions_by_commit app.releases, q.1 ≠ c) ↔
        (∀ p ∈ app.releases, p.2.commit ≠ c) := by
      intro c
      constructor
      · intro h p hp
        exact h (p.2.commit, p.1) (List.mem_map.mpr ⟨p, hp, rfl⟩)
      · intro h q hq
        obtain ⟨p, hp, rfl⟩ := List.mem_map.mp hq
        exact h p hp
    cases hd : dictGet (versions_by_commit app.releases) rs.head with
    | none =>
      refine ⟨by simp [installed_version, hd], ?_, ?_, ?_⟩
      · simp only [installed_version, hd]
        constructor
        · intro _
          exact ⟨rs, rfl, (hmem rs.head).mp ((dictGet_eq_none_iff _ _).mp hd)⟩
        · intro _; trivial
      · intro v h
        simp [installed_version, hd] at h
      · intro rs' h hex
        injection h with h; subst h
        obtain ⟨p, hp, hc⟩ := hex
        exact absurd hd (dictGet_isSome_of_mem
          ⟨(p.2.commit, p.1), List.mem_map.mpr ⟨p, hp, rfl⟩, hc⟩)
    | some v =>
      have hsrc := dictGet_eq_some_mem hd
      refine ⟨by simp [installed_version, hd], ?_, ?_, ?_⟩
      · simp only [installed_version, hd]
        constructor
        · intro h; exact absurd h (by simp)
        · rintro ⟨rs', h, hall⟩
          injection h with h; subst h
          obtain ⟨q, hq, hk, -⟩ := hsrc
          exact absurd hk ((hmem rs.head).mpr hall q hq)
      · intro v' h
        simp only [installed_version, hd] at h
        injection h with h; subst h
        obtain ⟨q, hq, hk, hv⟩ := hsrc
        obtain ⟨p, hp, rfl⟩ := List.mem_map.mp hq
        exact ⟨rs, rfl, p, hp, hv, hk⟩
      · intro rs' h _
        injection h with h; subst h
        exact ⟨v, by simp [installed_version, hd]⟩

/-- C1 witness: the characterization applied to a concrete app with no
working directory. -/
theorem installed_version_characterization_witness :
    installed_version fooApp none = AppVersion.notInstalled :=
  (installed_version_characterization fooApp none).1.mpr rfl

/-- C8: when releases share a revision, the reverse lookup in
`installed_version()` resolves the ambiguity in favor of the last-inserted
release of the releases mapping (later dict-comprehension insertions
overwrite earlier ones). -/
theorem installed_version_last_inserted_wins (app : AiidaLabApp)
    (rs : RepoState) (l1 l2 : List (String × Release)) (v : String) (r : Release)
    (happ : app.releases = l1 ++ (v, r) :: l2)
    (hc : r.commit = rs.head)
    (hlast : ∀ p ∈ l2, p.2.commit ≠ rs.head) :
    installed_version app (some rs) = AppVersion.version v := by
  have hget : dictGet (versions_by_commit app.releases) rs.head = some v := by
    unfold dictGet versions_by_commit
    rw [happ]
    have h2 : (List.map (fun p => (p.2.commit, p.1)) l2).reverse.find?
        (fun p => p.1 == rs.head) = none := by
      simp only [List.find?_eq_none, List.mem_reverse, List.mem_map]
      rintro x ⟨p, hp, rfl⟩
      simpa using hlast p hp
    simp [List.map_append, List.reverse_append, List.find?_append, h2, hc]
  simp [installed_version, hget]

/-- C8 witness: two concrete releases stored at the same commit; the lookup
returns the later release's version label. -/
theorem installed_version_last_inserted_wins_witness :
    installed_version dupApp (some { head := "c", dirty := false }) =
      AppVersion.version "1.1.0" :=
  installed_version_last_inserted_wins dupApp { head := "c", dirty := false }
    [("1.0.0", { commit := "c", dependencies := [] })] []
    "1.1.0" { commit := "c", dependencies := [] } rfl rfl (by simp)

theorem le_of_pairwise_getLast {κ : Type} [LinearOrder κ] {l : List κ} {m : κ}
    (hs : l.Pairwise (fun a b : κ => a ≤ b)) (hm : l.getLast? = some m) :
    ∀ x ∈ l, x ≤ m := by
  rw [List.getLast?_eq_some_iff] at hm
  obtain ⟨ys, rfl⟩ := hm
  intro x hx
  rcases List.mem_append.mp hx with h | h
  · exact (List.pairwise_append.mp hs).2.2 x h m (by simp)
  · simp at h; exact le_of_eq h

/-- C3: `install(V)` first unconditionally removes any existing working
directory, then clones the fragment-stripped git URL at ref `V` into the
app's path; a failed clone raises an install error carrying the app name,
path and underlying cause, and leaves the app uninstalled. -/
theorem install_explicit_version {κ : Type} [LinearOrder κ] (parse : String → κ)
    (strOf : κ → String)
    (gitClone : String → String → String → Except String RepoState)
    (app : AiidaLabApp) (v : String) (st : Option RepoState) :
    (∀ repo, gitClone (urldefrag_url app.git_url) v app.path = Except.ok repo →
      install parse strOf gitClone app (some v) st = (some repo, Except.ok ())) ∧
    (∀ cause, gitClone (urldefrag_url app.git_url) v app.path = Except.error cause →
      install parse strOf gitClone app (some v) st =
        (none, Except.error (InstallError.cloneFailed app.name app.path v cause))) := by
  constructor
  · intro repo h
    simp [install, h]
  · intro cause h
    cases st <;> simp [install, uninstalled, h]

/-- C3 witness: a concrete failing clone on an app with an installed working
directory leaves the app uninstalled and reports name, path, ref and cause. -/
theorem install_explicit_version_witness :
    install (fun s => s.length) (fun n => toString n)
      (fun _ _ _ => (Except.error "fatal: Remote branch not found" : Except String RepoState))
      fooApp (some "1.0.0") (some { head := "abc", dirty := false }) =
      (none, Except.error (InstallError.cloneFailed "foo" "/project/apps/foo"
        "1.0.0" "fatal: Remote branch not found")) :=
  (install_explicit_version (fun s => s.length) (fun n => toString n)
    (fun _ _ _ => (Except.error "fatal: Remote branch not found" : Except String RepoState))
    fooApp "1.0.0" (some { head := "abc", dirty := false })).2
    "fatal: Remote branch not found" rfl

/-- C9: `install(version=V)` with an explicit `V` performs no membership
check of `V` against the releases: even for a `V` unknown to the registry it
removes any existing working directory and attempts the clone with ref `V`,
so an unknown version surfaces only as a clone failure after the prior
installation has been removed. -/
theorem install_no_membership_check {κ : Type} [LinearOrder κ]
    (parse : String → κ) (strOf : κ → String)
    (gitClone : String → String → String → Except String RepoState)
    (app : AiidaLabApp) (v : String) (st : Option RepoState)
    (hunknown : ∀ p ∈ app.releases, p.1 ≠ v) :
    install parse strOf gitClone app (some v) st =
      (match gitClone (urldefrag_url app.git_url) v app.path with
       | Except.ok repo => (some repo, Except.ok ())
       | Except.error cause =>
         (none, Except.error (InstallError.cloneFailed app.name app.path v cause))) := by
  cases h : gitClone (urldefrag_url app.git_url) v app.path <;>
    cases st <;> simp [install, uninstalled, h]

/-- C9 witness: requesting a version absent from the registry of a concrete
installed app still attempts the clone, and its failure leaves the app
uninstalled. -/
theorem install_no_membership_check_witness :
    install (fun s => s.length) (fun n => toString n)
      (fun _ _ _ => (Except.error "fatal: unknown ref" : Except String RepoState))
      fooApp (some "9.9.9") (some { head := "abc", dirty := false }) =
      (none, Except.error (InstallError.cloneFailed "foo" "/project/apps/foo"
        "9.9.9" "fatal: unknown ref")) :=
  install_no_membership_check (fun s => s.length) (fun n => toString n)
    (fun _ _ _ => (Except.error "fatal: unknown ref" : Except String RepoState))
    fooApp "9.9.9" (some { head := "abc", dirty := false }) (by decide)

/-- C4: `install()` with version omitted selects the numerically highest
parsed version among all releases and installs it (cloning at the stringified
parsed version); with zero releases it fails with the no-releases error and
touches nothing. -/
theorem install_latest {κ : Type} [LinearOrder κ] (parse : String → κ)
    (strOf : κ → String)
    (gitClone : String → String → String → Except String RepoState)
    (app : AiidaLabApp) (st : Option RepoState) :
    (app.releases = [] →
      install parse strOf gitClone app none st =
        (st, Except.error (InstallError.noReleases "No versions available"))) ∧
    (app.releases ≠ [] → ∃ m : κ,
      m ∈ app.releases.map (fun p => parse p.1) ∧
      (∀ x ∈ app.releases.map (fun p => parse p.1), x ≤ m) ∧
      install parse strOf gitClone app none st =
        (match gitClone (urldefrag_url app.git_url) (strOf m) app.path with
         | Except.ok repo => (some repo, Except.ok ())
         | Except.error cause =>
           (none, Except.error
             (InstallError.cloneFailed app.name app.path (strOf m) cause)))) := by
  constructor
  · intro h
    simp [install, h]
  · intro h
    have hsne : (app.releases.map (fun p => parse p.1)).mergeSort
        (fun a b => decide (a ≤ b)) ≠ [] := by
      intro hnil
      apply h
      have hlen := congrArg List.length hnil
      simp only [List.length_mergeSort, List.length_map, List.length_nil] at hlen
      exact List.eq_nil_of_length_eq_zero hlen
    cases hm : ((app.releases.map (fun p => parse p.1)).mergeSort
        (fun a b => decide (a ≤ b))).getLast? with
    | none => exact absurd (List.getLast?_eq_none_iff.mp hm) hsne
    | some m =>
      have hb : ((app.releases.map (fun p => parse p.1)).mergeSort
          (fun a b => decide (a ≤ b))).Pairwise
          (fun a b : κ => decide (a ≤ b) = true) :=
        List.sorted_mergeSort
          (fun a b c hab hbc => by
            simp only [decide_eq_true_eq] at *
            exact le_trans hab hbc)
          (fun a b => by simpa using le_total a b)
          (app.releases.map (fun p => parse p.1))
      have hsort : ((app.releases.map (fun p => parse p.1)).mergeSort
          (fun a b => decide (a ≤ b))).Pairwise (fun a b : κ => a ≤ b) :=
        hb.imp (fun hab => of_decide_eq_true hab)
      refine ⟨m, ?_, ?_, ?_⟩
      · have hmem : m ∈ (app.releases.map (fun p => parse p.1)).mergeSort
            (fun a b => decide (a ≤ b)) := by
          rw [List.getLast?_eq_some_iff] at hm
          obtain ⟨ys, hys⟩ := hm
          rw [hys]; simp
        exact List.mem_mergeSort.mp hmem
      · intro x hx
        exact le_of_pairwise_getLast hsort hm x (List.mem_mergeSort.mpr hx)
      · cases hc : gitClone (urldefrag_url app.git_url) (strOf m) app.path <;>
          cases st <;> simp [install, uninstalled, hm, hc]

/-- C4 witness: installing an app with zero releases fails with the
no-releases error and leaves the (absent) working directory untouched. -/
theorem install_latest_witness :
    install (fun s => s.length) (fun n => toString n)
      (fun _ _ _ => (Except.error "e" : Except String RepoState))
      emptyApp none none =
      (none, Except.error (InstallError.noReleases "No versions available")) :=
  (install_latest (fun s => s.length) (fun n => toString n)
    (fun _ _ _ => (Except.error "e" : Except String RepoState)) emptyApp none).1 rfl

/-- C2: `find_matching_release(S)` returns exactly the release versions whose
parsed version satisfies `S`, sorted descending by parsed version with ties
broken by the insertion order of the releases mapping, and returns the empty
sequence (raising no error) when nothing matches. -/
theorem find_matching_release_spec {κ : Type} [LinearOrder κ]
    (parse : String → κ) (specifier : κ → Bool) (app : AiidaLabApp) :
    (find_matching_release parse specifier app).Perm
      ((app.releases.map (fun p => p.1)).filter (fun v => specifier (parse v))) ∧
    (find_matching_release parse specifier app).Pairwise
      (fun a b => parse b ≤ parse a) ∧
    (∀ k : κ, (find_matching_release parse specifier app).filter
        (fun v => decide (parse v = k)) =
      ((app.releases.map (fun p => p.1)).filter
        (fun v => specifier (parse v))).filter (fun v => decide (parse v = k))) ∧
    ((∀ p ∈ app.releases, ¬ specifier (parse p.1)) →
      find_matching_release parse specifier app = []) := by
  have hfmr : find_matching_release parse specifier app =
      ((app.releases.map (fun p => p.1)).filter
        (fun v => specifier (parse v))).mergeSort
        (fun a b => decide (parse b ≤ parse a)) := rfl
  have htrans : ∀ (a b c : String), decide (parse b ≤ parse a) = true →
      decide (parse c ≤ parse b) = true → decide (parse c ≤ parse a) = true := by
    intro a b c hab hbc
    simp only [decide_eq_true_eq] at *
    exact le_trans hbc hab
  have htotal : ∀ (a b : String),
      (decide (parse b ≤ parse a) || decide (parse a ≤ parse b)) = true := by
    intro a b
    simpa using le_total (parse b) (parse a)
  refine ⟨?_, ?_, ?_, ?_⟩
  · rw [hfmr]
    exact List.mergeSort_perm _ _
  · have hb : (((app.releases.map (fun p => p.1)).filter
        (fun v => specifier (parse v))).mergeSort
        (fun a b => decide (parse b ≤ parse a))).Pairwise
        (fun a b => decide (parse b ≤ parse a) = true) :=
      List.sorted_mergeSort htrans htotal _
    rw [hfmr]
    exact hb.imp (fun hab => of_decide_eq_true hab)
  · intro k
    have hFmem : ∀ a ∈ ((app.releases.map (fun p => p.1)).filter
        (fun v => specifier (parse v))).filter (fun v => decide (parse v = k)),
        parse a = k := by
      intro a ha
      simpa using List.of_mem_filter ha
    have hFpair : (((app.releases.map (fun p => p.1)).filter
        (fun v => specifier (parse v))).filter
        (fun v => decide (parse v = k))).Pairwise
        (fun a b => decide (parse b ≤ parse a) = true) := by
      apply List.pairwise_of_forall_mem_list
      intro a ha b hb
      have h1 := hFmem a ha
      have h2 := hFmem b hb
      simp [h1, h2]
    have hsubres : List.Sublist
        (((app.releases.map (fun p => p.1)).filter
          (fun v => specifier (parse v))).filter (fun v => decide (parse v = k)))
        (find_matching_release parse specifier app) := by
      rw [hfmr]
      exact List.sublist_mergeSort htrans htotal hFpair (List.filter_sublist _)
    have hsub2 : List.Sublist
        (((app.releases.map (fun p => p.1)).filter
          (fun v => specifier (parse v))).filter (fun v => decide (parse v = k)))
        ((find_matching_release parse specifier app).filter
          (fun v => decide (parse v = k))) := by
      have h3 := hsubres.filter (fun v => decide (parse v = k))
      rwa [List.filter_eq_self.mpr
        (fun a ha => by simpa using hFmem a ha)] at h3
    have hpermf : ((find_matching_release parse specifier app).filter
        (fun v => decide (parse v = k))).Perm
        (((app.releases.map (fun p => p.1)).filter
          (fun v => specifier (parse v))).filter (fun v => decide (parse v = k))) := by
      rw [hfmr]
      exact (List.mergeSort_perm _ _).filter _
    exact (hsub2.eq_of_length hpermf.length_eq.symm).symm
  · intro h
    have hnil : (app.releases.map (fun p => p.1)).filter
        (fun v => specifier (parse v)) = [] := by
      apply List.filter_eq_nil_iff.mpr
      intro a ha
      obtain ⟨p, hp, rfl⟩ := List.mem_map.mp ha
      simpa using h p hp
    rw [hfmr, hnil]
    simp

/-- C2 witness: a specifier matching no release yields the empty list. -/
theorem find_matching_release_spec_witness :
    find_matching_release (fun s => s.length) (fun _ => false) fooApp = [] :=
  (find_matching_release_spec (fun s => s.length) (fun _ => false) fooApp).2.2.2
    (by simp)

theorem find_incompatibilities_python_isEmpty {Pkg Req : Type}
    (Requirement : String → Req) (packages : List Pkg)
    (fulfills : Pkg → Req → Bool) (reqs : List String) :
    (find_incompatibilities_python Requirement packages fulfills reqs).isEmpty =
      reqs.all (fun req => packages.any (fun p => fulfills p (Requirement req))) := by
  rw [Bool.eq_iff_iff]
  simp [find_incompatibilities_python]

theorem any_incompatibility_all_python {Pkg Req : Type}
    (Requirement : String → Req) (packages : List Pkg)
    (fulfills : Pkg → Req → Bool) :
    ∀ (l : List (String × List String)),
      (∀ kd ∈ l, kd.1 = "python-requirements") →
      any_incompatibility Requirement packages fulfills l =
        Except.ok (!(l.all (fun kd => kd.2.all
          (fun req => packages.any (fun p => fulfills p (Requirement req))))))
  | [], _ => by simp [any_incompatibility]
  | (key, deps) :: rest, h => by
    have hk : key = "python-requirements" := h (key, deps) (List.mem_cons_self _ _)
    subst hk
    rw [show any_incompatibility Requirement packages fulfills
        (("python-requirements", deps) :: rest) =
      (if (find_incompatibilities_python Requirement packages fulfills deps).isEmpty then
        any_incompatibility Requirement packages fulfills rest
      else Except.ok true) from by simp [any_incompatibility]]
    rw [find_incompatibilities_python_isEmpty]
    cases hd : deps.all (fun req => packages.any (fun p => fulfills p (Requirement req))) with
    | false => simp [hd]
    | true =>
      rw [any_incompatibility_all_python Requirement packages fulfills rest
        (fun kd hkd => h kd (List.mem_cons_of_mem _ hkd))]
      simp [hd]

theorem any_incompatibility_unknown_key {Pkg Req : Type}
    (Requirement : String → Req) (packages : List Pkg)
    (fulfills : Pkg → Req → Bool) :
    ∀ (pre : List (String × List String)) (kd : String × List String)
      (post : List (String × List String)),
      kd.1 ≠ "python-requirements" →
      (∀ kd' ∈ pre, kd'.1 = "python-requirements" ∧
        kd'.2.all (fun req => packages.any
          (fun p => fulfills p (Requirement req))) = true) →
      any_incompatibility Requirement packages fulfills (pre ++ kd :: post) =
        Except.error "ValueError: Unknown eco-system"
  | [], (key, deps), post, hk, _ => by
    simp only [List.nil_append]
    simp [any_incompatibility, hk]
  | (k0, d0) :: pre, kd, post, hk, hpre => by
    obtain ⟨hk0, hd0⟩ := hpre (k0, d0) (List.mem_cons_self _ _)
    subst hk0
    rw [List.cons_append]
    rw [show any_incompatibility Requirement packages fulfills
        (("python-requirements", d0) :: (pre ++ kd :: post)) =
      (if (find_incompatibilities_python Requirement packages fulfills d0).isEmpty then
        any_incompatibility Requirement packages fulfills (pre ++ kd :: post)
      else Except.ok true) from by simp [any_incompatibility]]
    rw [find_incompatibilities_python_isEmpty, hd0]
    simp only [if_true]
    exact any_incompatibility_unknown_key Requirement packages fulfills pre kd post hk
      (fun kd' h => hpre kd' (List.mem_cons_of_mem _ h))

/-- C5 counterexample: a release declaring a `python-requirements` entry with
an unmet requirement followed by an unrecognized `jupyter-requirements`
entry: `is_compatible` returns `False` and raises no `ValueError`, because
`not any(...)` stops consuming the generator at the first yielded
incompatibility — contradicting the claim that an unrecognized ecosystem key
raises regardless of the other ecosystems' results. -/
theorem is_compatible_no_valueerror_counterexample :
    (∃ p ∈ badApp.releases, p.1 = "1.0.0" ∧
      ∃ kd ∈ p.2.dependencies, kd.1 ≠ "python-requirements") ∧
    is_compatible (fun s => s) ([] : List String) (fun _ _ => false)
      badApp "1.0.0" = Except.ok false := by
  constructor
  · decide
  · rfl

/-- C5 (amended): `is_compatible(V)` returns true iff every declared
requirement across every ecosystem entry is satisfiable, provided every
ecosystem key is the recognized `python-requirements` key; an unrecognized
ecosystem key raises the fatal `ValueError` only when every earlier entry's
requirements are all satisfiable (otherwise the short-circuiting `any`
returns an incompatibility first and no error is raised). -/
theorem is_compatible_spec {Pkg Req : Type} (Requirement : String → Req)
    (packages : List Pkg) (fulfills : Pkg → Req → Bool)
    (app : AiidaLabApp) (version : String) (rel : Release)
    (hrel : dictGet app.releases version = some rel) :
    ((∀ kd ∈ rel.dependencies, kd.1 = "python-requirements") →
      is_compatible Requirement packages fulfills app version =
        Except.ok (rel.dependencies.all (fun kd => kd.2.all
          (fun req => packages.any (fun p => fulfills p (Requirement req)))))) ∧
    (∀ pre kd post, rel.dependencies = pre ++ kd :: post →
      kd.1 ≠ "python-requirements" →
      (∀ kd' ∈ pre, kd'.1 = "python-requirements" ∧
        kd'.2.all (fun req => packages.any
          (fun p => fulfills p (Requirement req))) = true) →
      is_compatible Requirement packages fulfills app version =
        Except.error "ValueError: Unknown eco-system") := by
  constructor
  · intro h
    simp only [is_compatible, hrel]
    rw [any_incompatibility_all_python Requirement packages fulfills _ h]
    simp [Except.map]
  · intro pre kd post hdeps hk hpre
    simp only [is_compatible, hrel, hdeps]
    rw [any_incompatibility_unknown_key Requirement packages fulfills pre kd post hk hpre]
    rfl

/-- C5 witness: a concrete release whose only (recognized) requirement is
fulfilled by an installed package is compatible. -/
theorem is_compatible_spec_witness :
    is_compatible (fun s => s) (["aiida-core"] : List String)
      (fun p r => p == r) goodApp "2.0.0" = Except.ok true := by
  have h := (is_compatible_spec (fun s => s) (["aiida-core"] : List String)
    (fun p r => p == r) goodApp "2.0.0"
    { commit := "c2", dependencies := [("python-requirements", ["aiida-core"])] }
    (by decide)).1 (by decide)
  rw [h]
  rfl

end Aiidalab
